import Mathlib

/-!
Verification of the query-construction and validation core of the
google-ads-mcp-server repository, against a shallow embedding of its
JavaScript source.  Strings are modelled as Lean `String`s, manipulated
through their `List Char` representation; JavaScript `toLowerCase`,
`includes`, `trim`, `replace` (first occurrence) and friends are given
explicit executable models.
-/

namespace GoogleAdsMcp

/-! ## Basic string utilities (models of JavaScript string operations) -/

/-- Model of per-character lower-casing, as done by `String.prototype.toLowerCase`
on the ASCII text this server handles. -/
def lowerL (l : List Char) : List Char := l.map Char.toLower

/-- Per-character upper-casing (model of `toUpperCase`). -/
def upperL (l : List Char) : List Char := l.map Char.toUpper

/-- `hasSub pat s` holds when `pat` occurs as a contiguous substring of `s`;
model of `String.prototype.includes`. -/
def hasSub (pat s : List Char) : Bool := s.tails.any (fun t => pat.isPrefixOf t)

/-- String-level wrapper: `strIncludes s pat` models `s.includes(pat)`. -/
def strIncludes (s pat : String) : Bool := hasSub pat.data s.data

theorem hasSub_subset {pat s : List Char} (h : hasSub pat s = true) :
    ∀ c ∈ pat, c ∈ s := by
  intro c hc
  simp only [hasSub, List.any_eq_true] at h
  obtain ⟨t, ht, hpre⟩ := h
  rw [List.mem_tails] at ht
  rw [List.isPrefixOf_iff_prefix] at hpre
  exact ht.sublist.subset (hpre.sublist.subset hc)

/-! ## Mutation-keyword blacklist (src/server/utils/validation.js, blockMutations) -/

/-- The fixed keyword blacklist, in declared order. -/
def MUTATION_KEYWORDS : List String := ["create", "update", "remove", "mutate", "delete"]

/-- The error message thrown when a keyword is found. -/
def mutationMsg (keyword : String) : String :=
  ("Mutation operations not allowed in query tool. Query contains: \"") ++ keyword ++
    ("\". Use the mutate tool for write operations.")

/-- The scan loop of `blockMutations`: first keyword (in list order) contained in
the lower-cased query wins; `.error` models the thrown exception. -/
def blockMutationsGo (lowerQuery : String) : List String → Except String Unit
  | [] => .ok ()
  | keyword :: rest =>
    if strIncludes lowerQuery keyword then .error (mutationMsg keyword)
    else blockMutationsGo lowerQuery rest

/-- Model of `blockMutations(query)`: lower-cases the query and scans the
keyword list in order. -/
def blockMutations (query : String) : Except String Unit :=
  blockMutationsGo (String.mk (lowerL query.data)) MUTATION_KEYWORDS

theorem blockMutationsGo_ok_iff (lq : String) (ks : List String) :
    blockMutationsGo lq ks = .ok () ↔ ∀ k ∈ ks, strIncludes lq k = false := by
  induction ks with
  | nil => simp [blockMutationsGo]
  | cons k rest ih =>
    by_cases h : strIncludes lq k
    · simp [blockMutationsGo, h]
    · simp only [Bool.not_eq_true] at h
      simp [blockMutationsGo, h, ih]

theorem blockMutationsGo_error (lq : String) (ks : List String) (msg : String)
    (h : blockMutationsGo lq ks = .error msg) :
    ∃ k, ks.find? (fun k => strIncludes lq k) = some k ∧ msg = mutationMsg k := by
  induction ks with
  | nil => simp [blockMutationsGo] at h
  | cons k rest ih =>
    by_cases hk : strIncludes lq k
    · refine ⟨k, ?_, ?_⟩
      · simp [List.find?, hk]
      · simp [blockMutationsGo, hk] at h
        exact h.symm
    · simp only [Bool.not_eq_true] at hk
      simp only [blockMutationsGo, hk, Bool.false_eq_true, if_false] at h
      obtain ⟨k0, hfind, hmsg⟩ := ih h
      exact ⟨k0, by simp [List.find?, hk, hfind], hmsg⟩

theorem toLower_whitespace {a : Char} (h : a.isWhitespace = true) :
    a.toLower.isWhitespace = true := by
  have h4 : a = ' ' ∨ a = '\t' ∨ a = '\x0d' ∨ a = '\n' := by
    simp only [Char.isWhitespace, Bool.or_eq_true, decide_eq_true_eq] at h
    tauto
  rcases h4 with h4 | h4 | h4 | h4 <;> (subst h4; decide)

theorem not_includes_of_whitespace (q : String)
    (hq : ∀ c ∈ q.data, c.isWhitespace = true)
    (k : String) (c : Char) (hc : c ∈ k.data) (hcw : c.isWhitespace = false) :
    strIncludes (String.mk (lowerL q.data)) k = false := by
  by_contra h
  simp only [Bool.not_eq_false] at h
  have hmem : c ∈ lowerL q.data := hasSub_subset h c hc
  simp only [lowerL, List.mem_map] at hmem
  obtain ⟨a, ha, rfl⟩ := hmem
  rw [toLower_whitespace (hq a ha)] at hcw
  exact Bool.true_eq_false.mp hcw

/-- C1: `blockMutations(q)` throws exactly when the lower-cased `q` contains at
least one of the keywords `create`, `update`, `remove`, `mutate`, `delete` as a
substring; when it throws, the error names the first keyword (scanning in the
declared order) whose substring occurs; whitespace-only (in particular empty)
input does not throw. -/
theorem blockMutations_spec (query : String) :
    (blockMutations query = .ok () ↔
      ∀ k ∈ MUTATION_KEYWORDS, strIncludes (String.mk (lowerL query.data)) k = false)
  ∧ (∀ msg, blockMutations query = .error msg →
      ∃ k, MUTATION_KEYWORDS.find?
            (fun k => strIncludes (String.mk (lowerL query.data)) k) = some k
        ∧ msg = mutationMsg k)
  ∧ ((∀ c ∈ query.data, c.isWhitespace = true) → blockMutations query = .ok ()) := by
  refine ⟨blockMutationsGo_ok_iff _ _, fun msg h => blockMutationsGo_error _ _ _ h, ?_⟩
  intro hws
  rw [blockMutations, blockMutationsGo_ok_iff]
  intro k hk
  fin_cases hk
  · exact not_includes_of_whitespace query hws _ 'c' (by decide) (by decide)
  · exact not_includes_of_whitespace query hws _ 'u' (by decide) (by decide)
  · exact not_includes_of_whitespace query hws _ 'r' (by decide) (by decide)
  · exact not_includes_of_whitespace query hws _ 'm' (by decide) (by decide)
  · exact not_includes_of_whitespace query hws _ 'd' (by decide) (by decide)

/-- Witness for C1: applying the theorem at a concrete whitespace-only input. -/
theorem blockMutations_spec_witness : blockMutations ("   ") = .ok () :=
  (blockMutations_spec ("   ")).2.2 (by decide)

/-! ## Query-structure linter (query-validator.js, validateQuery) -/

def lbrace : Char := Char.ofNat 123

def rbrace : Char := Char.ofNat 125

/-- Characters allowed inside a placeholder token: the regex class `[A-Z_]`. -/
def isTokenChar (c : Char) : Bool := c.isUpper || c = '_'

/-- Attempt to match the regex `\x7b\x7b[A-Z_]+\x7d\x7d` at the head of `l`;
returns the matched text and the remainder. -/
def tplMatchHere (l : List Char) : Option (List Char × List Char) :=
  match l with
  | c1 :: c2 :: rest =>
    if c1 = lbrace ∧ c2 = lbrace then
      let run := rest.takeWhile isTokenChar
      let rest2 := rest.dropWhile isTokenChar
      match rest2 with
      | d1 :: d2 :: rest3 =>
        if run ≠ [] ∧ d1 = rbrace ∧ d2 = rbrace then
          some (c1 :: c2 :: (run ++ [d1, d2]), rest3)
        else none
      | _ => none
    else none
  | _ => none

/-- Scan for all matches of the global regex `\x7b\x7b[A-Z_]+\x7d\x7d`
(leftmost, non-overlapping).  The `Nat` fuel only makes the recursion
structural; every step consumes at least one character, so `l.length` is always
enough. -/
def findTplVarsAux : Nat → List Char → List (List Char)
  | _, [] => []
  | 0, _ :: _ => []
  | fuel + 1, l =>
    match tplMatchHere l with
    | some (m, rest) => m :: findTplVarsAux fuel rest
    | none =>
      match l with
      | [] => []
      | _ :: cs => findTplVarsAux fuel cs

/-- All matches of the global regex `\x7b\x7b[A-Z_]+\x7d\x7d`, modelling
`query.match(...)` with the `g` flag (`null` is modelled by `[]`). -/
def findTplVars (l : List Char) : List (List Char) := findTplVarsAux l.length l

/-- Case-insensitive substring test: model of `/pat/i.test(s)` for a literal
lower-case pattern `pat`. -/
def ciIncludes (s pat : String) : Bool := hasSub (lowerL pat.data) (lowerL s.data)

/-- Model of `/conversion_value(?!s)/i.test(s)`: a case-insensitive occurrence of
`conversion_value` not followed by an `s`/`S` (end of string also matches). -/
def hasConvValueNoS (s : String) : Bool :=
  (lowerL s.data).tails.any (fun t =>
    ("conversion_value").data.isPrefixOf t &&
      (match t.drop 16 with
       | [] => true
       | c :: _ => decide (c ≠ 's')))

/-- Model of the regex `.*` (any characters except line terminators) followed by
the literal pattern `p2`, over an already lower-cased character list. -/
def dotStarThen (p2 : List Char) : List Char → Bool
  | [] => p2.isEmpty
  | c :: cs => p2.isPrefixOf (c :: cs) ||
      (decide (c ≠ '\n') && decide (c ≠ '\x0d') && dotStarThen p2 cs)

/-- Model of `/p1.*p2/i.test(s)` for literal lower-case patterns. -/
def ciSeqTest (s p1 p2 : String) : Bool :=
  (lowerL s.data).tails.any (fun t =>
    p1.data.isPrefixOf t && dotStarThen p2.data (t.drop p1.data.length))

def joinSep (sep : String) : List String → String
  | [] => ""
  | [x] => x
  | x :: xs => x ++ sep ++ joinSep sep xs

/-- Model of `String.prototype.trim`. -/
def trimL (l : List Char) : List Char :=
  ((l.dropWhile Char.isWhitespace).reverse.dropWhile Char.isWhitespace).reverse

/-- `query.trim().toUpperCase().startsWith('SELECT')` -/
def startsWithSelect (query : String) : Bool :=
  ("SELECT").data.isPrefixOf (upperL (trimL query.data))

/-- `query.toUpperCase().includes('FROM')` -/
def includesFROM (query : String) : Bool := hasSub ("FROM").data (upperL query.data)

structure ValidationResult where
  valid : Bool
  warnings : List String
  errors : List String
deriving Repr, DecidableEq

def tplVarsMsg (vs : List (List Char)) : String :=
  ("Unreplaced template variables: ") ++ joinSep (", ") (vs.map String.mk)

def warnUnderscore : String := "Should be conversions_value (with underscore)"

def warnPlural : String := "Should be conversions_value (plural)"

def warnShoppingSegment : String :=
  "segments.product_item_id may not be available in shopping_performance_view"

def warnKeywordProduct : String := "keyword_view and product segments may be incompatible"

def warnShoppingKeyword : String :=
  "shopping_performance_view and keyword fields may be incompatible"

def warnNoWhere : String :=
  "Query uses segments.date but has no WHERE clause - may return too much data"

/-- Model of `validateQuery(query)` from query-validator.js: collects errors
(unreplaced template variables, missing SELECT, missing FROM) and advisory
warnings; `valid` is true exactly when there are no errors.  The function is a
pure total function: it never throws. -/
def validateQuery (query : String) : ValidationResult :=
  let tplVars := findTplVars query.data
  let errors : List String :=
    (if tplVars = [] then [] else [tplVarsMsg tplVars])
    ++ (if startsWithSelect query then [] else [("Query must start with SELECT")])
    ++ (if includesFROM query then [] else [("Query must include FROM clause")])
  let warnings : List String :=
    (if ciIncludes query ("conversions_value") then [warnUnderscore] else [])
    ++ (if hasConvValueNoS query then [warnPlural] else [])
    ++ (if ciSeqTest query ("segments.product_item_id") ("from shopping_performance_view")
        then [warnShoppingSegment] else [])
    ++ (if strIncludes query ("keyword_view") && strIncludes query ("segments.product_")
        then [warnKeywordProduct] else [])
    ++ (if strIncludes query ("shopping_performance_view")
           && strIncludes query ("ad_group_criterion.keyword")
        then [warnShoppingKeyword] else [])
    ++ (if strIncludes query ("segments.date") && !(strIncludes query ("WHERE"))
        then [warnNoWhere] else [])
  ⟨errors.isEmpty, warnings, errors⟩

/-- C7: `validateQuery` (the linter behind `lint`) is a pure total function —
it never throws — and `valid = false` exactly when a leftover placeholder token
remains, or the trimmed text does not start with SELECT (case-insensitively),
or there is no FROM substring (case-insensitively).  `valid` is determined by
the errors alone, so warnings never affect it. -/
theorem validateQuery_spec (query : String) :
    ((validateQuery query).valid = false ↔
      (findTplVars query.data ≠ [] ∨ startsWithSelect query = false ∨
        includesFROM query = false))
  ∧ ((validateQuery query).valid = (validateQuery query).errors.isEmpty) := by
  constructor
  · by_cases h1 : findTplVars query.data = [] <;>
      by_cases h2 : startsWithSelect query <;>
        by_cases h3 : includesFROM query <;>
          simp [validateQuery, h1, h2, h3]
  · rfl

/-- Witness for C7: a concrete non-SELECT query is reported invalid. -/
theorem validateQuery_spec_witness :
    (validateQuery ("DELETE campaign")).valid = false :=
  (validateQuery_spec ("DELETE campaign")).1.mpr (Or.inr (Or.inl (by decide)))

/-- C10: every query containing `conversions_value` (in any letter case) — the
correct field spelling itself — is flagged with the advisory warning saying it
should be `conversions_value (with underscore)`, because the first footgun
pattern matches the correct name. -/
theorem conversions_value_footgun (query : String)
    (h : ciIncludes query ("conversions_value") = true) :
    warnUnderscore ∈ (validateQuery query).warnings := by
  simp [validateQuery, h]

/-- Witness for C10 at a fully correct concrete query. -/
theorem conversions_value_footgun_witness :
    warnUnderscore ∈
      (validateQuery ("SELECT metrics.conversions_value FROM campaign")).warnings :=
  conversions_value_footgun ("SELECT metrics.conversions_value FROM campaign") (by decide)

/-! ## Response formatter (response-format.js, formatError) -/

/-- JavaScript string truthiness: the empty string is falsy, absent is falsy. -/
def jsTruthy : Option String → Option String
  | some s => if s = "" then none else some s
  | none => none

/-- A sub-error inside a failure's own `errors` array (duck-typed in the
source: `e?.message || e?.error_message || JSON.stringify(e)`); `json` models
the `JSON.stringify` fallback text of the value. -/
structure SubError where
  message : Option String
  error_message : Option String
  json : String
deriving Repr, DecidableEq

/-- One element of a Google Ads `failures` array: either a plain string or a
duck-typed object with optional `message` / `error_message` / `errors`. -/
inductive FailureItem where
  | fstr (s : String)
  | fobj (message error_message : Option String) (errors : Option (List SubError))
      (json : String)
deriving Repr, DecidableEq

/-- One element of a top-level `errors` array. -/
inductive ErrorItem where
  | estr (s : String)
  | eobj (message error_message : Option String) (json : String)
deriving Repr, DecidableEq

/-- A thrown JavaScript value as formatError probes it: a plain string, or an
object with the duck-typed fields the source inspects.  `ctor` models
`error.constructor.name`, `toStr` the result of `error.toString()`, and
`serialized` the own-property JSON serialization (`none` models a serialization
failure). -/
inductive JsError where
  | jstr (s : String)
  | jobj (ctor : String) (name message details code : Option String)
      (failures : Option (List FailureItem)) (errors : Option (List ErrorItem))
      (toStr : String) (serialized : Option String)
deriving Repr, DecidableEq

def subErrorMsg (e : SubError) : String :=
  match jsTruthy e.message with
  | some m => m
  | none =>
    match jsTruthy e.error_message with
    | some m => m
    | none => e.json

def failureItemMsg : FailureItem → String
  | .fstr s => s
  | .fobj message error_message errors json =>
    match jsTruthy message with
    | some m => m
    | none =>
      match jsTruthy error_message with
      | some m => m
      | none =>
        match errors with
        | some es => joinSep ("; ") (es.map subErrorMsg)
        | none => json

/-- `.map(...).filter(Boolean).join('; ')` over a failures array. -/
def joinFailures (fs : List FailureItem) : String :=
  joinSep ("; ") ((fs.map failureItemMsg).filter (fun s => s ≠ ""))

def errorItemMsg : ErrorItem → String
  | .estr s => s
  | .eobj message error_message json =>
    match jsTruthy message with
    | some m => m
    | none =>
      match jsTruthy error_message with
      | some m => m
      | none => json

def joinErrors (es : List ErrorItem) : String :=
  joinSep ("; ") ((es.map errorItemMsg).filter (fun s => s ≠ ""))

/-- The if/else-if extraction chain of formatError, before the final
empty/`\x7b\x7d`/`[object Object]` fallback check. -/
def extractBase : JsError → String
  | .jstr s => s
  | .jobj _ _ message details _ failures errors toStr serialized =>
    match jsTruthy message with
    | some m => m
    | none =>
      match jsTruthy details with
      | some d => d
      | none =>
        match failures with
        | some fs =>
          let j := joinFailures fs
          if j = "" then ("Google Ads API error (see failures array)") else j
        | none =>
          match errors with
          | some es =>
            let j := joinErrors es
            if j = "" then ("Google Ads API error (see errors array)") else j
          | none =>
            let m1 := if toStr ≠ "" ∧ toStr ≠ ("[object Object]") then toStr else ""
            if m1 ≠ "" then m1
            else
              match serialized with
              | some s => if s ≠ "" ∧ s ≠ ("\x7b\x7d") then s else ""
              | none => ""

def ctorOf : JsError → String
  | .jstr _ => "String"
  | .jobj ctor _ _ _ _ _ _ _ _ => ctor

def nameOf : JsError → Option String
  | .jstr _ => none
  | .jobj _ name _ _ _ _ _ _ _ => name

def codeOf : JsError → Option String
  | .jstr _ => none
  | .jobj _ _ _ _ code _ _ _ _ => code

/-- The single extracted human-readable message of formatError. -/
def extractMessage (e : JsError) : String :=
  let m := extractBase e
  if m = "" ∨ m = ("\x7b\x7d") ∨ m = ("[object Object]") then
    ("Unknown error type: ") ++ ctorOf e ++ (" - check server logs for details")
  else m

inductive McpErrorCode where
  | invalidParams
  | internalError
deriving Repr, DecidableEq

/-- The classified error the function throws (`McpError` in the source). -/
structure McpError where
  code : McpErrorCode
  message : String
deriving Repr, DecidableEq

def rateLimitMsg : String :=
  "Google Ads API rate limit exceeded. Please try again in a few moments."

def authFailedMsg : String :=
  "Authentication failed. Please check your Google Ads credentials."

/-- `error?.name && error.name !== 'Error' ? name + ': ' : ''` -/
def genericNamePart (name : Option String) : String :=
  match jsTruthy name with
  | some n => if n ≠ ("Error") then n ++ (": ") else ""
  | none => ""

/-- `error?.code ? ' (code: ' + code + ')' : ''` -/
def genericCodePart (code : Option String) : String :=
  match jsTruthy code with
  | some c => (" (code: ") ++ c ++ (")")
  | none => ""

/-- The classification of a message into the thrown `McpError`, exactly as the
source's cascade of case-sensitive `includes` checks. -/
def classifyMessage (message : String) (name code : Option String) : McpError :=
  if strIncludes message ("required") || strIncludes message ("Invalid") then
    ⟨.invalidParams, message⟩
  else if strIncludes message ("RATE_LIMIT") || strIncludes message ("quota") then
    ⟨.internalError, rateLimitMsg⟩
  else if strIncludes message ("AUTHENTICATION") || strIncludes message ("credentials")
      || strIncludes message ("auth") then
    ⟨.internalError, authFailedMsg⟩
  else
    ⟨.internalError, genericNamePart name ++ message ++ genericCodePart code⟩

/-- Model of `formatError(error)`.  The codomain is the thrown `McpError`
itself: formatError never returns normally, so its entire behaviour is the
classified error it throws. -/
def formatError (e : JsError) : McpError :=
  classifyMessage (extractMessage e) (nameOf e) (codeOf e)

/-- C3: formatError's whole effect is to throw `classifyMessage` of the single
extracted message (it never returns normally — the model's codomain is the
thrown error); the message is classified by case-sensitive substring checks in
order: `required`/`Invalid` gives the client-parameter kind carrying the
message; otherwise `RATE_LIMIT`/`quota` gives the rate-limit kind with a fixed
message; otherwise `AUTHENTICATION`/`credentials`/`auth` gives the auth kind
with a fixed message; otherwise the generic internal kind carrying the
name/message/code concatenation. -/
theorem formatError_spec (e : JsError) :
    (formatError e = classifyMessage (extractMessage e) (nameOf e) (codeOf e))
  ∧ ((strIncludes (extractMessage e) ("required") = true ∨
        strIncludes (extractMessage e) ("Invalid") = true) →
      formatError e = ⟨.invalidParams, extractMessage e⟩)
  ∧ (strIncludes (extractMessage e) ("required") = false →
     strIncludes (extractMessage e) ("Invalid") = false →
     (strIncludes (extractMessage e) ("RATE_LIMIT") = true ∨
        strIncludes (extractMessage e) ("quota") = true) →
      formatError e = ⟨.internalError, rateLimitMsg⟩)
  ∧ (strIncludes (extractMessage e) ("required") = false →
     strIncludes (extractMessage e) ("Invalid") = false →
     strIncludes (extractMessage e) ("RATE_LIMIT") = false →
     strIncludes (extractMessage e) ("quota") = false →
     (strIncludes (extractMessage e) ("AUTHENTICATION") = true ∨
        strIncludes (extractMessage e) ("credentials") = true ∨
        strIncludes (extractMessage e) ("auth") = true) →
      formatError e = ⟨.internalError, authFailedMsg⟩)
  ∧ (strIncludes (extractMessage e) ("required") = false →
     strIncludes (extractMessage e) ("Invalid") = false →
     strIncludes (extractMessage e) ("RATE_LIMIT") = false →
     strIncludes (extractMessage e) ("quota") = false →
     strIncludes (extractMessage e) ("AUTHENTICATION") = false →
     strIncludes (extractMessage e) ("credentials") = false →
     strIncludes (extractMessage e) ("auth") = false →
      formatError e = ⟨.internalError,
        genericNamePart (nameOf e) ++ extractMessage e ++ genericCodePart (codeOf e)⟩) := by
  refine ⟨rfl, ?_, ?_, ?_, ?_⟩
  · rintro (h | h) <;> simp [formatError, classifyMessage, h]
  · rintro h1 h2 (h | h) <;> simp [formatError, classifyMessage, h1, h2, h]
  · rintro h1 h2 h3 h4 (h | h | h) <;>
      simp [formatError, classifyMessage, h1, h2, h3, h4, h]
  · intro h1 h2 h3 h4 h5 h6 h7
    simp [formatError, classifyMessage, h1, h2, h3, h4, h5, h6, h7]

/-- Witness for C3: a concrete thrown string containing `required` is
classified as the client-parameter kind carrying the message itself. -/
theorem formatError_spec_witness :
    formatError (.jstr ("query parameter is required and must be a string")) =
      ⟨.invalidParams, ("query parameter is required and must be a string")⟩ :=
  (formatError_spec (.jstr ("query parameter is required and must be a string"))).2.1
    (Or.inl (by decide))

/-! ## Raw GAQL query tool: LIMIT enforcement (gaql-query.js, runGaqlQuery) -/

/-- Decimal digits of a natural number, most significant first.  The `Nat` fuel
(first argument) only makes the recursion structural; `n + 1` is always
enough. -/
def natDigitsAux : Nat → Nat → List Char
  | 0, _ => []
  | fuel + 1, n =>
    if n < 10 then [Char.ofNat (48 + n)]
    else natDigitsAux fuel (n / 10) ++ [Char.ofNat (48 + n % 10)]

def natDigits (n : Nat) : List Char := natDigitsAux (n + 1) n

def natRender (n : Nat) : String := String.mk (natDigits n)

/-- Decimal rendering of an integer, modelling JavaScript number-to-string
interpolation for integral values. -/
def intRender (i : Int) : String :=
  if i < 0 then ("-") ++ natRender (-i).toNat else natRender i.toNat

/-- Numeric value of a list of decimal digit characters, modelling
`parseInt(ds, 10)` on an all-digit string. -/
def digitsVal (l : List Char) : Nat := l.foldl (fun a c => a * 10 + (c.toNat - 48)) 0

/-- The regex word-character class `\w`, i.e. `[A-Za-z0-9_]`. -/
def isWordChar (c : Char) : Bool := c.isAlphanum || c = '_'

/-- Case-insensitively strip a (lower-case) literal pattern from the front. -/
def stripPrefixCI : List Char → List Char → Option (List Char)
  | [], l => some l
  | _ :: _, [] => none
  | p :: ps, c :: cs => if c.toLower = p then stripPrefixCI ps cs else none

/-- Try to match `LIMIT\s+(\d+)` (case-insensitive, greedy) at the head of `l`;
`\s` is modelled by `Char.isWhitespace`.  Returns (matched span, digit group,
remainder). -/
def matchLimitHere (l : List Char) : Option (List Char × List Char × List Char) :=
  match stripPrefixCI ("limit").data l with
  | none => none
  | some rest =>
    let ws := rest.takeWhile Char.isWhitespace
    let rest2 := rest.dropWhile Char.isWhitespace
    let ds := rest2.takeWhile Char.isDigit
    let rest3 := rest2.dropWhile Char.isDigit
    if ws = [] ∨ ds = [] then none
    else some (l.take 5 ++ ws ++ ds, ds, rest3)

/-- Leftmost match of `\bLIMIT\s+(\d+)` (case-insensitive): `prev` is the
character before the current position, for the `\b` word-boundary test.
Returns (text before the match, matched span, digit group, text after). -/
def findLimitAux : Option Char → List Char →
    Option (List Char × List Char × List Char × List Char)
  | _, [] => none
  | prev, c :: cs =>
    let boundary := match prev with | none => true | some p => !(isWordChar p)
    match (if boundary then matchLimitHere (c :: cs) else none) with
    | some (m, ds, rest) => some ([], m, ds, rest)
    | none =>
      match findLimitAux (some c) cs with
      | some (pre, m, ds, rest) => some (c :: pre, m, ds, rest)
      | none => none

/-- `const limit = Math.min(Math.max(1, params.limit || 100), 10000)`:
the requested limit, 100 when the parameter is absent or `0` (JavaScript
falsiness of `0`), clamped to `[1, 10000]`. -/
def effectiveLimit (limitParam : Option Int) : Int :=
  let requestedLimit : Int :=
    match limitParam with
    | none => 100
    | some l => if l = 0 then 100 else l
  min (max 1 requestedLimit) 10000

/-- The LIMIT-enforcement step of `runGaqlQuery` on the (already trimmed)
query: append ` LIMIT <limit>` when no LIMIT clause is present; otherwise
rewrite the clause to `LIMIT 10000` only when its value exceeds 10000. -/
def enforceLimit (query : String) (limitParam : Option Int) : String :=
  let limit := effectiveLimit limitParam
  match findLimitAux none query.data with
  | none => query ++ (" LIMIT ") ++ intRender limit
  | some (pre, _, ds, rest) =>
    if digitsVal ds > 10000 then
      String.mk (pre ++ ("LIMIT 10000").data ++ rest)
    else query

/-- `runGaqlQuery` first trims the raw query parameter, then enforces the
limit. -/
def runGaqlLimitStage (rawQuery : String) (limitParam : Option Int) : String :=
  enforceLimit (String.mk (trimL rawQuery.data)) limitParam

/-- C2 counterexample: with `limit: 0` the code's effective limit is 100
(JavaScript `0 || 100`), not the clamped value `min (max 1 0) 10000 = 1` that
the claim's "defaulting to 100 and clamped to [1,10000]" prescribes for the
given parameter 0. -/
theorem enforceLimit_counterexample :
    effectiveLimit (some 0) = 100 ∧
      ¬ effectiveLimit (some 0) = min (max 1 (0 : Int)) 10000 := by decide

/-- C2 (amended): the effective limit is the limit parameter with 100
substituted when the parameter is absent **or zero** (any JavaScript-falsy
value), clamped to [1,10000]; when the trimmed query has no `LIMIT` clause the
executed query is the trimmed input with ` LIMIT <effective limit>` appended;
when it contains `LIMIT k` the query is left unchanged for `k ≤ 10000` and the
clause is rewritten to `LIMIT 10000` for `k > 10000`. -/
theorem enforceLimit_spec (query : String) (limitParam : Option Int) :
    (runGaqlLimitStage query limitParam
        = enforceLimit (String.mk (trimL query.data)) limitParam)
  ∧ (effectiveLimit limitParam =
      min (max 1 (match limitParam with
                  | none => 100
                  | some l => if l = 0 then 100 else l)) 10000)
  ∧ (1 ≤ effectiveLimit limitParam ∧ effectiveLimit limitParam ≤ 10000)
  ∧ (findLimitAux none query.data = none →
      enforceLimit query limitParam =
        query ++ (" LIMIT ") ++ intRender (effectiveLimit limitParam))
  ∧ (∀ pre m ds rest, findLimitAux none query.data = some (pre, m, ds, rest) →
      (digitsVal ds ≤ 10000 → enforceLimit query limitParam = query)
    ∧ (10000 < digitsVal ds →
        enforceLimit query limitParam =
          String.mk (pre ++ ("LIMIT 10000").data ++ rest))) := by
  refine ⟨rfl, rfl, ⟨?_, ?_⟩, ?_, ?_⟩
  · exact le_min (le_max_left 1 _) (by norm_num)
  · exact min_le_right _ _
  · intro h
    simp only [enforceLimit, h]
  · intro pre m ds rest h
    constructor
    · intro hle
      simp only [enforceLimit, h]
      rw [if_neg (by omega)]
    · intro hgt
      simp only [enforceLimit, h]
      rw [if_pos (by omega)]

/-- Witness for C2: a concrete query with no LIMIT clause and `limit: 0` gets
` LIMIT 100` appended. -/
theorem enforceLimit_spec_witness :
    enforceLimit ("SELECT campaign.id FROM campaign") (some 0) =
      ("SELECT campaign.id FROM campaign LIMIT 100") := by
  have h := (enforceLimit_spec ("SELECT campaign.id FROM campaign") (some 0)).2.2.2.1
    (by decide)
  exact h.trans (by decide)

/-! ## Query-template engine (gaql-templates.js, buildQuery) -/

theorem stringMk_data (s : String) : String.mk s.data = s := rfl

theorem hasSub_iff {pat s : List Char} : hasSub pat s = true ↔ pat <:+: s := by
  simp only [hasSub, List.any_eq_true, List.mem_tails, List.isPrefixOf_iff_prefix]
  rw [List.infix_iff_prefix_suffix]
  constructor
  · rintro ⟨t, h1, h2⟩; exact ⟨t, h2, h1⟩
  · rintro ⟨t, h1, h2⟩; exact ⟨t, h2, h1⟩

/-- Model of `String.prototype.replace` with a plain-string pattern: replaces
only the first (leftmost) occurrence; with no occurrence the string is
returned unchanged. -/
def replaceFirstL : List Char → List Char → List Char → List Char
  | [], pat, repl => if pat.isPrefixOf ([] : List Char) then repl else []
  | c :: cs, pat, repl =>
    if pat.isPrefixOf (c :: cs) then repl ++ (c :: cs).drop pat.length
    else c :: replaceFirstL cs pat repl

def replaceFirst (s pat repl : String) : String :=
  String.mk (replaceFirstL s.data pat.data repl.data)

theorem replaceFirstL_self (l r : List Char) : replaceFirstL l l r = r := by
  cases l with
  | nil => simp [replaceFirstL]
  | cons c cs =>
    rw [replaceFirstL, if_pos]
    · simp
    · exact List.isPrefixOf_iff_prefix.mpr List.prefix_rfl

theorem replaceFirst_self (s r : String) : replaceFirst s s r = r := by
  rw [replaceFirst, replaceFirstL_self, stringMk_data]

theorem hasSub_cons (pat : List Char) (c : Char) (cs : List Char) :
    hasSub pat (c :: cs) = (pat.isPrefixOf (c :: cs) || hasSub pat cs) := by
  simp [hasSub]

theorem replaceFirstL_no_match : ∀ (s pat r : List Char),
    hasSub pat s = false → replaceFirstL s pat r = s := by
  intro s
  induction s with
  | nil =>
    intro pat r h
    rw [replaceFirstL, if_neg]
    intro hpre
    have : hasSub pat [] = true := by
      simp [hasSub, hpre]
    rw [h] at this
    exact Bool.false_ne_true this
  | cons c cs ih =>
    intro pat r h
    rw [hasSub_cons, Bool.or_eq_false_iff] at h
    rw [replaceFirstL, if_neg (by simp [h.1]), ih pat r h.2]

theorem replaceFirst_noop (s pat repl : String)
    (h : hasSub pat.data s.data = false) : replaceFirst s pat repl = s := by
  rw [replaceFirst, replaceFirstL_no_match _ _ _ h, stringMk_data]

/-- Whitespace-run collapsing, modelling `replace(/\s+/g, ' ')`.  The `Nat`
fuel only makes the recursion structural; the input length is always enough. -/
def collapseWsAux : Nat → List Char → List Char
  | _, [] => []
  | 0, _ :: _ => []
  | fuel + 1, c :: cs =>
    if c.isWhitespace then ' ' :: collapseWsAux fuel (cs.dropWhile Char.isWhitespace)
    else c :: collapseWsAux fuel cs

/-- `query.trim().replace(/\s+/g, ' ')`: trim, then collapse every whitespace
run (newlines included) to a single space. -/
def collapseWs (s : String) : String :=
  String.mk (collapseWsAux (trimL s.data).length (trimL s.data))

/-- JavaScript `x || d` for an optional string value. -/
def jsOrStr (o : Option String) (d : String) : String :=
  match o with
  | some s => if s = "" then d else s
  | none => d

/-- JavaScript `x || d` for an optional integer value (`0` is falsy). -/
def jsOrInt (o : Option Int) (d : Int) : Int :=
  match o with
  | some v => if v = 0 then d else v
  | none => d

/-- `Math.round`, on exact rationals: round half toward positive infinity. -/
def jsRound (q : ℚ) : Int := ⌊q + 1 / 2⌋

/-- A single-quote character as a string (kept out of string literals). -/
def squote : String := String.mk [Char.ofNat 39]

def tokenStr (name : String) : String := ("\x7b\x7b") ++ name ++ ("\x7d\x7d")

def tokMETRICS : String := tokenStr ("METRICS")

def tokSTART_DATE : String := tokenStr ("START_DATE")

def tokEND_DATE : String := tokenStr ("END_DATE")

def tokFILTERS : String := tokenStr ("FILTERS")

def tokORDER_BY : String := tokenStr ("ORDER_BY")

def tokLIMIT : String := tokenStr ("LIMIT")

def tokMIN_IMPRESSIONS : String := tokenStr ("MIN_IMPRESSIONS")

def tokMIN_COST_MICROS : String := tokenStr ("MIN_COST_MICROS")

def tokMAX_CONVERSIONS : String := tokenStr ("MAX_CONVERSIONS")

def tokRESOURCE_ID : String := tokenStr ("RESOURCE_ID")

def tokDATE : String := tokenStr ("DATE")

def tokMAX_QUALITY_SCORE : String := tokenStr ("MAX_QUALITY_SCORE")

def tokSEGMENT_FIELD : String := tokenStr ("SEGMENT_FIELD")

def tokSTATUS_FILTER : String := tokenStr ("STATUS_FILTER")

def tokGEO_LEVEL : String := tokenStr ("GEO_LEVEL")

/-- The substitution parameters accepted by buildQuery; `none` models an
absent (`undefined`) property.  `minCost` is an exact rational standing for the
JavaScript number given in major currency units. -/
structure BuildParams where
  metrics : Option (List String)
  dates : Option (String × String)
  filters : Option String
  orderBy : Option String
  limit : Option Int
  minImpressions : Option Int
  minCost : Option ℚ
  maxConversions : Option Int
  resourceId : Option String
  date : Option String
  maxQualityScore : Option Int
  segmentField : Option String
  statusFilter : Option String
  geoLevel : Option String
deriving Repr, DecidableEq

/-- `m.startsWith('metrics.') ? m : 'metrics.' + m` -/
def metricsName (m : String) : String :=
  if ("metrics.").data.isPrefixOf m.data then m else ("metrics.") ++ m

/-- The metrics array joined with `', '`, auto-prefixing bare names. -/
def metricsJoin (ms : List String) : String := joinSep (", ") (ms.map metricsName)

/-- The substitution chain of buildQuery, in source order (before the final
whitespace cleanup). -/
def rawSubstitute (template : String) (p : BuildParams) : String :=
  let q := template
  let q := match p.metrics with
    | some ms => replaceFirst q tokMETRICS (metricsJoin ms)
    | none => q
  let q := match p.dates with
    | some d => replaceFirst (replaceFirst q tokSTART_DATE d.1) tokEND_DATE d.2
    | none => q
  let q := replaceFirst q tokFILTERS (jsOrStr p.filters "")
  let q := replaceFirst q tokORDER_BY (jsOrStr p.orderBy ("metrics.cost_micros"))
  let q := replaceFirst q tokLIMIT (intRender (jsOrInt p.limit 50))
  let q := replaceFirst q tokMIN_IMPRESSIONS (intRender (jsOrInt p.minImpressions 10))
  let q := match p.minCost with
    | some v => replaceFirst q tokMIN_COST_MICROS (intRender (jsRound (v * 1000000)))
    | none => q
  let q := replaceFirst q tokMAX_CONVERSIONS (intRender (p.maxConversions.getD 0))
  let q := match p.resourceId with
    | some r => replaceFirst q tokRESOURCE_ID r
    | none => q
  let q := match jsTruthy p.date with
    | some d => replaceFirst q tokDATE d
    | none => q
  let q := match p.maxQualityScore with
    | some v => replaceFirst q tokMAX_QUALITY_SCORE (intRender v)
    | none => q
  let q := match jsTruthy p.segmentField with
    | some s => replaceFirst q tokSEGMENT_FIELD s
    | none => q
  let q := match jsTruthy p.statusFilter with
    | some s => replaceFirst q tokSTATUS_FILTER (("= ") ++ squote ++ s ++ squote)
    | none => replaceFirst q tokSTATUS_FILTER ("IS NOT NULL")
  let q := match jsTruthy p.geoLevel with
    | some g => replaceFirst q tokGEO_LEVEL g
    | none => q
  q

/-- Substitution followed by whitespace cleanup
(`query.trim().replace(/\s+/g, ' ')`). -/
def substituteAll (template : String) (p : BuildParams) : String :=
  collapseWs (rawSubstitute template p)

/-- Model of `buildQuery(template, params)`: substitute, clean whitespace, run
the linter for diagnostics only (its result is bound and discarded — lint
findings never block or alter the returned query), and return the query. -/
def buildQuery (template : String) (p : BuildParams) : String :=
  let finalQuery := substituteAll template p
  let _validation := validateQuery finalQuery
  finalQuery

def emptyBuildParams : BuildParams :=
  ⟨none, none, none, none, none, none, none, none, none, none, none, none, none, none⟩

theorem digitChar_toNat (k : Nat) (hk : k < 10) : (Char.ofNat (48 + k)).toNat = 48 + k := by
  interval_cases k <;> decide

theorem natDigitsAux_mem : ∀ (fuel n : Nat) (c : Char), c ∈ natDigitsAux fuel n →
    48 ≤ c.toNat ∧ c.toNat ≤ 57 := by
  intro fuel
  induction fuel with
  | zero => intro n c h; simp [natDigitsAux] at h
  | succ fuel ih =>
    intro n c h
    rw [natDigitsAux] at h
    by_cases hn : n < 10
    · rw [if_pos hn] at h
      simp only [List.mem_singleton] at h
      subst h
      rw [digitChar_toNat n hn]
      omega
    · rw [if_neg hn] at h
      rcases List.mem_append.mp h with h | h
      · exact ih _ _ h
      · simp only [List.mem_singleton] at h
        subst h
        have hm : n % 10 < 10 := Nat.mod_lt _ (by norm_num)
        rw [digitChar_toNat _ hm]
        omega

theorem intRender_mem (i : Int) (c : Char) (h : c ∈ (intRender i).data) :
    45 ≤ c.toNat ∧ c.toNat ≤ 57 := by
  rw [intRender] at h
  by_cases hi : i < 0
  · rw [if_pos hi, String.data_append] at h
    rcases List.mem_append.mp h with h | h
    · simp only [List.mem_singleton] at h
      subst h
      decide
    · have := natDigitsAux_mem _ _ _ h
      omega
  · rw [if_neg hi] at h
    have := natDigitsAux_mem _ _ _ h
    omega

theorem not_ws_of_toNat_ge (c : Char) (h1 : 45 ≤ c.toNat) : c.isWhitespace = false := by
  simp only [Char.isWhitespace, Bool.or_eq_false_iff, decide_eq_false_iff_not]
  refine ⟨⟨⟨?_, ?_⟩, ?_⟩, ?_⟩ <;>
    (intro hc; rw [hc] at h1; exact absurd h1 (by decide))

theorem dropWhileWs_id (l : List Char) (h : ∀ c ∈ l, c.isWhitespace = false) :
    l.dropWhile Char.isWhitespace = l := by
  cases l with
  | nil => rfl
  | cons c cs =>
    rw [List.dropWhile_cons_of_neg]
    simp [h c (List.mem_cons_self _ _)]

theorem trimL_id (l : List Char) (h : ∀ c ∈ l, c.isWhitespace = false) : trimL l = l := by
  rw [trimL, dropWhileWs_id l h, dropWhileWs_id l.reverse
    (fun c hc => h c (List.mem_reverse.mp hc)), List.reverse_reverse]

theorem collapseWsAux_id : ∀ (fuel : Nat) (l : List Char),
    (∀ c ∈ l, c.isWhitespace = false) → l.length ≤ fuel → collapseWsAux fuel l = l := by
  intro fuel
  induction fuel with
  | zero =>
    intro l h hl
    match l with
    | [] => rfl
    | c :: cs => simp at hl
  | succ fuel ih =>
    intro l h hl
    match l with
    | [] => rfl
    | c :: cs =>
      rw [collapseWsAux, if_neg (by simp [h c (List.mem_cons_self _ _)])]
      rw [ih cs (fun x hx => h x (List.mem_cons_of_mem _ hx)) (by simp at hl; omega)]

theorem collapseWs_id (s : String) (h : ∀ c ∈ s.data, c.isWhitespace = false) :
    collapseWs s = s := by
  rw [collapseWs, trimL_id _ h, collapseWsAux_id _ _ h (Nat.le_refl _), stringMk_data]

theorem collapseWsAux_ws : ∀ (fuel : Nat) (l : List Char) (c : Char),
    c ∈ collapseWsAux fuel l → c.isWhitespace = true → c = ' ' := by
  intro fuel
  induction fuel with
  | zero =>
    intro l c h hw
    match l with
    | [] => simp [collapseWsAux] at h
    | x :: xs => simp [collapseWsAux] at h
  | succ fuel ih =>
    intro l c h hw
    match l with
    | [] => simp [collapseWsAux] at h
    | x :: xs =>
      rw [collapseWsAux] at h
      by_cases hx : x.isWhitespace
      · rw [if_pos hx] at h
        rcases List.mem_cons.mp h with h | h
        · exact h
        · exact ih _ _ h hw
      · rw [if_neg hx] at h
        rcases List.mem_cons.mp h with h | h
        · subst h; exact absurd hw (by simp [Bool.not_eq_true] at hx; simp [hx])
        · exact ih _ _ h hw

theorem collapseWs_ws (s : String) (c : Char) (h : c ∈ (collapseWs s).data)
    (hw : c.isWhitespace = true) : c = ' ' :=
  collapseWsAux_ws _ _ _ h hw

theorem joinSep_infix (sep : String) : ∀ (ms : List String) (m : String), m ∈ ms →
    m.data <:+: (joinSep sep ms).data := by
  intro ms
  induction ms with
  | nil => intro m h; cases h
  | cons x xs ih =>
    intro m h
    cases xs with
    | nil =>
      rcases List.mem_cons.mp h with rfl | h
      · exact List.infix_rfl
      · cases h
    | cons y ys =>
      rcases List.mem_cons.mp h with rfl | hm
      · show m.data <:+: (m ++ sep ++ joinSep sep (y :: ys)).data
        simp only [String.data_append]
        exact ((List.prefix_append m.data sep.data).trans
          (List.prefix_append _ _)).isInfix
      · have h1 := ih m hm
        show m.data <:+: (x ++ sep ++ joinSep sep (y :: ys)).data
        simp only [String.data_append]
        rw [List.append_assoc]
        exact h1.trans (((List.suffix_append sep.data _).trans
          (List.suffix_append x.data _)).isInfix)

theorem replaceFirst_numeric_noop (i : Int) (tok repl : String)
    (htok : lbrace ∈ tok.data) : replaceFirst (intRender i) tok repl = intRender i := by
  apply replaceFirst_noop
  by_contra h
  simp only [Bool.not_eq_false] at h
  have := intRender_mem i lbrace (hasSub_subset h _ htok)
  revert this
  decide

theorem intRender_not_ws (i : Int) : ∀ c ∈ (intRender i).data, c.isWhitespace = false :=
  fun c hc => not_ws_of_toNat_ge c (intRender_mem i c hc).1

theorem jsOrStr_none (d : String) : jsOrStr none d = d := rfl

theorem jsOrInt_none (d : Int) : jsOrInt none d = d := rfl

/-- A template containing the metrics placeholder, used for the concrete
instantiations below. -/
def tmplExample : String := ("SELECT ") ++ tokMETRICS ++ (" FROM campaign")

/-- C4: buildQuery substitutions — a metrics array is joined with `', '` with
every element not already starting with `metrics.` given that prefix (so
`['cost_micros','clicks']` yields a string containing both
`metrics.cost_micros` and `metrics.clicks`); a given `minCost` value `v`
replaces the minimum-cost token with `round(v * 1000000)`; an absent order-by
defaults to `metrics.cost_micros` and an absent row limit defaults to 50; and
the returned string is the substituted template with every whitespace run
(newlines included) collapsed to a single space and trimmed. -/
theorem buildQuery_subst_spec :
    (∀ (ms : List String) (m : String), m ∈ ms →
      hasSub (metricsName m).data (metricsJoin ms).data = true)
  ∧ (∀ m : String, metricsName m =
      if ("metrics.").data.isPrefixOf m.data then m else ("metrics.") ++ m)
  ∧ (∀ v : ℚ,
      buildQuery tokMIN_COST_MICROS
          ⟨none, none, none, none, none, none, some v,
            none, none, none, none, none, none, none⟩
        = intRender (jsRound (v * 1000000)))
  ∧ (∀ (t : String) (a : Option (List String)) (b : Option (String × String))
       (f o : Option String) (l mi : Option Int) (mc : Option ℚ) (mx : Option Int)
       (ri dt : Option String) (mq : Option Int) (sf st gl : Option String),
      (buildQuery t ⟨a, b, f, none, l, mi, mc, mx, ri, dt, mq, sf, st, gl⟩
        = buildQuery t
            ⟨a, b, f, some ("metrics.cost_micros"), l, mi, mc, mx, ri, dt, mq, sf, st, gl⟩)
    ∧ (buildQuery t ⟨a, b, f, o, none, mi, mc, mx, ri, dt, mq, sf, st, gl⟩
        = buildQuery t ⟨a, b, f, o, some 50, mi, mc, mx, ri, dt, mq, sf, st, gl⟩))
  ∧ (∀ (t : String) (p : BuildParams),
      buildQuery t p = collapseWs (rawSubstitute t p))
  ∧ (∀ (t : String) (p : BuildParams) (c : Char),
      c ∈ (buildQuery t p).data → c.isWhitespace = true → c = ' ')
  ∧ (hasSub ("metrics.cost_micros").data
        (buildQuery tmplExample
          ⟨some [("cost_micros"), ("clicks")], none, none, none, none, none, none,
            none, none, none, none, none, none, none⟩).data = true
     ∧ hasSub ("metrics.clicks").data
        (buildQuery tmplExample
          ⟨some [("cost_micros"), ("clicks")], none, none, none, none, none, none,
            none, none, none, none, none, none, none⟩).data = true) := by
  refine ⟨?_, fun m => rfl, ?_, ?_, fun t p => rfl, ?_, by decide⟩
  · intro ms m hm
    rw [hasSub_iff]
    exact joinSep_infix (", ") (ms.map metricsName) (metricsName m)
      (List.mem_map.mpr ⟨m, hm, rfl⟩)
  · intro v
    show collapseWs (rawSubstitute _ _) = _
    simp only [rawSubstitute, jsOrStr, jsOrInt, jsTruthy, Option.getD]
    rw [replaceFirst_noop tokMIN_COST_MICROS tokFILTERS _ (by decide),
      replaceFirst_noop tokMIN_COST_MICROS tokORDER_BY _ (by decide),
      replaceFirst_noop tokMIN_COST_MICROS tokLIMIT _ (by decide),
      replaceFirst_noop tokMIN_COST_MICROS tokMIN_IMPRESSIONS _ (by decide),
      replaceFirst_self,
      replaceFirst_numeric_noop _ tokMAX_CONVERSIONS _ (by decide),
      replaceFirst_numeric_noop _ tokSTATUS_FILTER _ (by decide),
      collapseWs_id _ (intRender_not_ws _)]
  · intro t a b f o l mi mc mx ri dt mq sf st gl
    constructor <;> simp [buildQuery, substituteAll, rawSubstitute, jsOrStr, jsOrInt]
  · intro t p c h hw
    exact collapseWs_ws (rawSubstitute t p) c h hw

/-- Witness for C4: the metrics-containment property at the concrete list of
the spec example. -/
theorem buildQuery_subst_spec_witness :
    hasSub (metricsName ("clicks")).data
      (metricsJoin [("cost_micros"), ("clicks")]).data = true :=
  buildQuery_subst_spec.1 [("cost_micros"), ("clicks")] ("clicks") (by decide)

/-- C5: buildQuery always returns normally (it is a total function to strings):
a placeholder whose substitution is absent is never replaced and remains
literally in the output, and the linter is consulted for diagnostics only —
the built query is returned even when the linter reports it invalid. -/
theorem buildQuery_passthrough_spec :
    (∀ (t : String) (p : BuildParams), buildQuery t p = substituteAll t p)
  ∧ (∀ t : String,
      hasSub tokFILTERS.data t.data = false →
      hasSub tokORDER_BY.data t.data = false →
      hasSub tokLIMIT.data t.data = false →
      hasSub tokMIN_IMPRESSIONS.data t.data = false →
      hasSub tokMAX_CONVERSIONS.data t.data = false →
      hasSub tokSTATUS_FILTER.data t.data = false →
      buildQuery t emptyBuildParams = collapseWs t)
  ∧ ((validateQuery (buildQuery tmplExample emptyBuildParams)).valid = false
     ∧ buildQuery tmplExample emptyBuildParams = tmplExample
     ∧ hasSub tokMETRICS.data tmplExample.data = true) := by
  refine ⟨fun t p => rfl, ?_, by decide⟩
  intro t h1 h2 h3 h4 h5 h6
  show collapseWs (rawSubstitute _ _) = _
  simp only [rawSubstitute, emptyBuildParams, jsOrStr, jsOrInt, jsTruthy, Option.getD]
  rw [replaceFirst_noop _ _ _ h1, replaceFirst_noop _ _ _ h2,
    replaceFirst_noop _ _ _ h3, replaceFirst_noop _ _ _ h4,
    replaceFirst_noop _ _ _ h5, replaceFirst_noop _ _ _ h6]

/-- Witness for C5: the metrics token itself passes through unreplaced. -/
theorem buildQuery_passthrough_spec_witness :
    buildQuery tokMETRICS emptyBuildParams = tokMETRICS := by
  have h := buildQuery_passthrough_spec.2.1 tokMETRICS
    (by decide) (by decide) (by decide) (by decide) (by decide) (by decide)
  exact h.trans (by decide)

/-- C9: buildQuery's `||` defaults apply to every falsy substitution value, not
only absent ones — `limit: 0` substitutes 50, `minImpressions: 0` substitutes
10, and `orderBy: ''` substitutes `metrics.cost_micros`; so those parameters
can never put a zero row limit, zero impression threshold, or empty order-by
into the query. -/
theorem buildQuery_falsy_defaults :
    (∀ (t : String) (a : Option (List String)) (b : Option (String × String))
       (f o : Option String) (l mi : Option Int) (mc : Option ℚ) (mx : Option Int)
       (ri dt : Option String) (mq : Option Int) (sf st gl : Option String),
      (buildQuery t ⟨a, b, f, o, some 0, mi, mc, mx, ri, dt, mq, sf, st, gl⟩
        = buildQuery t ⟨a, b, f, o, none, mi, mc, mx, ri, dt, mq, sf, st, gl⟩)
    ∧ (buildQuery t ⟨a, b, f, o, l, some 0, mc, mx, ri, dt, mq, sf, st, gl⟩
        = buildQuery t ⟨a, b, f, o, l, none, mc, mx, ri, dt, mq, sf, st, gl⟩)
    ∧ (buildQuery t ⟨a, b, f, some (""), l, mi, mc, mx, ri, dt, mq, sf, st, gl⟩
        = buildQuery t ⟨a, b, f, none, l, mi, mc, mx, ri, dt, mq, sf, st, gl⟩))
  ∧ (intRender (jsOrInt (some 0) 50) = ("50"))
  ∧ (intRender (jsOrInt (some 0) 10) = ("10"))
  ∧ (jsOrStr (some ("")) ("metrics.cost_micros") = ("metrics.cost_micros")) := by
  refine ⟨?_, by decide, by decide, by decide⟩
  intro t a b f o l mi mc mx ri dt mq sf st gl
  refine ⟨?_, ?_, ?_⟩ <;>
    simp [buildQuery, substituteAll, rawSubstitute, jsOrStr, jsOrInt]

/-- Witness for C9: the zero limit substitutes the string `50`. -/
theorem buildQuery_falsy_defaults_witness : intRender (jsOrInt (some 0) 50) = ("50") :=
  buildQuery_falsy_defaults.2.1

/-! ## Date-range resolver, CUSTOM branch (validation.js, validateDateRange) -/

/-- Gregorian leap-year rule, as implemented by the JavaScript `Date`
calendar. -/
def isLeapYear (y : Int) : Bool :=
  if (y % 4 = 0 ∧ y % 100 ≠ 0) ∨ y % 400 = 0 then true else false

/-- Gregorian month lengths (month given 1-based; only 1..12 is ever used). -/
def daysInMonth (y : Int) : Nat → Nat
  | 2 => if isLeapYear y then 29 else 28
  | 4 => 30
  | 6 => 30
  | 9 => 30
  | 11 => 30
  | _ => 31

/-- Roll an overflowing day-of-month forward through the calendar, as
`new Date(y, m, d)` does for `d` past the end of the month.  The fuel is
structural only; each step removes at least 28 days, so `d` is always
enough. -/
def rollDayFwd : Nat → Int → Nat → Nat → Int × Nat × Nat
  | 0, y, m, d => (y, m, d)
  | fuel + 1, y, m, d =>
    if d ≤ daysInMonth y m then (y, m, d)
    else if m = 12 then rollDayFwd fuel (y + 1) 1 (d - daysInMonth y m)
    else rollDayFwd fuel y (m + 1) (d - daysInMonth y m)

/-- Roll a non-positive day-of-month backward through the calendar, as
`new Date(y, m, 0)` and friends do. -/
def rollDayBwd : Nat → Int → Nat → Int → Int × Nat × Nat
  | 0, y, m, d => (y, m, d.toNat)
  | fuel + 1, y, m, d =>
    if 1 ≤ d then (y, m, d.toNat)
    else if m = 1 then rollDayBwd fuel (y - 1) 12 (d + daysInMonth (y - 1) 12)
    else rollDayBwd fuel y (m - 1) (d + daysInMonth y (m - 1))

/-- Model of `new Date(year, monthIndex, day)` observed through
`getFullYear`/`getMonth`/`getDate` (as a normalized `(year, month 1-12, day)`
triple): years 0–99 are mapped into 1900–1999, the month index is normalized
into the year by floor division, and an out-of-range day is rolled through
actual Gregorian month lengths. -/
def jsDateYMD (y m0 d : Int) : Int × Nat × Nat :=
  let ya := if 0 ≤ y ∧ y ≤ 99 then y + 1900 else y
  let ym := ya + m0.fdiv 12
  let mn := (m0.fmod 12).toNat
  if 1 ≤ d then rollDayFwd d.toNat ym (mn + 1) d.toNat
  else rollDayBwd (1 - d).toNat ym (mn + 1) d

/-- `String(n).padStart(2, '0')` for the month/day components. -/
def pad2 (n : Nat) : String := if n < 10 then ("0") ++ natRender n else natRender n

/-- The `formatDate` helper: zero-padded `YYYY-MM-DD` (the year itself is not
padded by the source). -/
def formatDate (t : Int × Nat × Nat) : String :=
  intRender t.1 ++ ("-") ++ pad2 t.2.1 ++ ("-") ++ pad2 t.2.2

/-- Formatting an invalid date (any NaN component) yields `NaN-NaN-NaN` in
JavaScript. -/
def formatDateOpt : Option (Int × Nat × Nat) → String
  | some t => formatDate t
  | none => "NaN-NaN-NaN"

/-- `s.split('-')` on the character list. -/
def splitDash : List Char → List (List Char)
  | [] => [[]]
  | c :: cs =>
    if c = '-' then [] :: splitDash cs
    else
      match splitDash cs with
      | [] => [[c]]
      | p :: ps => (c :: p) :: ps

/-- Model of JavaScript `Number()` restricted to the integer-literal forms this
code path meets: the empty string is 0, an optional minus sign followed by
digits is the integer, anything else is NaN (modelled by `none`). -/
def jsNumber (s : List Char) : Option Int :=
  let t := trimL s
  match t with
  | [] => some 0
  | c :: cs =>
    if c = '-' then
      if cs ≠ [] ∧ cs.all Char.isDigit then some (-(digitsVal cs : Int)) else none
    else if (c :: cs).all Char.isDigit then some ((digitsVal (c :: cs) : Int)) else none

/-- `const [y, m, d] = date.split('-').map(Number)`: extra parts are ignored,
missing or non-numeric parts make the date invalid (NaN). -/
def parseYMD (s : String) : Option (Int × Int × Int) :=
  match splitDash s.data with
  | p1 :: p2 :: p3 :: _ =>
    match jsNumber p1, jsNumber p2, jsNumber p3 with
    | some y, some m, some d => some (y, m, d)
    | _, _, _ => none
  | _ => none

/-- `new Date(year, month - 1, day)` from a parsed `YYYY-MM-DD` string. -/
def customDate (s : String) : Option (Int × Nat × Nat) :=
  match parseYMD s with
  | some (y, m, d) => some (jsDateYMD y (m - 1) d)
  | none => none

def customRangeError : String := "start_date and end_date required for CUSTOM range"

/-- Model of the `'CUSTOM'` arm of `validateDateRange`: both bounds must be
truthy (present and non-empty), each is parsed as year/month/day integers and
rebuilt as a local date, and the two dates are re-formatted as
`YYYY-MM-DD`. -/
def validateDateRangeCustom (startDate endDate : Option String) :
    Except String (String × String) :=
  if (jsTruthy startDate).isNone ∨ (jsTruthy endDate).isNone then
    .error customRangeError
  else
    .ok (formatDateOpt (customDate (startDate.getD (""))),
         formatDateOpt (customDate (endDate.getD (""))))

instance {ε α : Type} [DecidableEq ε] [DecidableEq α] : DecidableEq (Except ε α) :=
  fun x y =>
    match x, y with
    | .ok a, .ok b =>
      if h : a = b then .isTrue (congrArg Except.ok h)
      else .isFalse (fun he => h (Except.ok.inj he))
    | .error a, .error b =>
      if h : a = b then .isTrue (congrArg Except.error h)
      else .isFalse (fun he => h (Except.error.inj he))
    | .ok _, .error _ => .isFalse (fun he => Except.noConfusion he)
    | .error _, .ok _ => .isFalse (fun he => Except.noConfusion he)

/-- C6 counterexample: `2024-02-30` is a zero-padded `YYYY-MM-DD` string, but
`new Date(2024, 1, 30)` normalizes it to March 1st, so the CUSTOM range does
not reproduce the input. -/
theorem validateDateRangeCustom_counterexample :
    validateDateRangeCustom (some ("2024-02-30")) (some ("2024-02-30")) =
      .ok (("2024-03-01"), ("2024-03-01"))
  ∧ ¬ validateDateRangeCustom (some ("2024-02-30")) (some ("2024-02-30")) =
      .ok (("2024-02-30"), ("2024-02-30")) := by decide

theorem digitsVal_go : ∀ (fuel n acc : Nat), n < fuel →
    (natDigitsAux fuel n).foldl (fun a c => a * 10 + (c.toNat - 48)) acc
      = acc * 10 ^ (natDigitsAux fuel n).length + n := by
  intro fuel
  induction fuel with
  | zero => intro n acc h; exact absurd h (Nat.not_lt_zero n)
  | succ fuel ih =>
    intro n acc h
    rw [natDigitsAux]
    by_cases hn : n < 10
    · rw [if_pos hn]
      simp only [List.foldl_cons, List.foldl_nil, List.length_singleton, pow_one]
      rw [digitChar_toNat n hn]
      omega
    · rw [if_neg hn]
      have hrec : n / 10 < fuel := by
        have := Nat.div_lt_self (by omega : 0 < n) (by norm_num : 1 < 10)
        omega
      rw [List.foldl_append, ih (n / 10) acc hrec]
      simp only [List.foldl_cons, List.foldl_nil, List.length_append,
        List.length_singleton]
      rw [digitChar_toNat _ (Nat.mod_lt _ (by norm_num))]
      rw [pow_succ,
        show 48 + n % 10 - 48 = n % 10 from by omega]
      have hdm : n / 10 * 10 + n % 10 = n := by omega
      set P := 10 ^ (natDigitsAux fuel (n / 10)).length with hP
      calc (acc * P + n / 10) * 10 + n % 10
          = acc * (P * 10) + (n / 10 * 10 + n % 10) := by ring
        _ = acc * (P * 10) + n := by rw [hdm]

theorem digitsVal_natDigits (n : Nat) : digitsVal (natDigits n) = n := by
  have h := digitsVal_go (n + 1) n 0 (Nat.lt_succ_self n)
  simpa [digitsVal, natDigits] using h

theorem digitsVal_zero_cons (l : List Char) : digitsVal ('0' :: l) = digitsVal l := rfl

theorem natDigits_ne_nil (n : Nat) : natDigits n ≠ [] := by
  rw [natDigits, natDigitsAux]
  split <;> simp

theorem natDigits_mem (n : Nat) (c : Char) (h : c ∈ natDigits n) :
    48 ≤ c.toNat ∧ c.toNat ≤ 57 :=
  natDigitsAux_mem _ _ _ h

theorem isDigit_of_toNat (c : Char) (h1 : 48 ≤ c.toNat) (h2 : c.toNat ≤ 57) :
    c.isDigit = true := by
  obtain ⟨k, hk1, hk2, hk⟩ : ∃ k, 48 ≤ k ∧ k ≤ 57 ∧ c = Char.ofNat k :=
    ⟨c.toNat, h1, h2, (Char.ofNat_toNat c).symm⟩
  subst hk
  interval_cases k <;> decide

theorem ne_dash_of_digit (c : Char) (h1 : 48 ≤ c.toNat) : c ≠ '-' := by
  intro hc
  rw [hc] at h1
  exact absurd h1 (by decide)

theorem not_ws_of_digit (c : Char) (h1 : 48 ≤ c.toNat) : c.isWhitespace = false :=
  not_ws_of_toNat_ge c (by omega)

theorem splitDash_no_dash (a : List Char) (ha : ∀ c ∈ a, c ≠ '-') :
    splitDash a = [a] := by
  induction a with
  | nil => rfl
  | cons c cs ih =>
    rw [splitDash, if_neg (ha c (List.mem_cons_self _ _)),
      ih (fun x hx => ha x (List.mem_cons_of_mem _ hx))]

theorem splitDash_append (a rest : List Char) (ha : ∀ c ∈ a, c ≠ '-') :
    splitDash (a ++ '-' :: rest) = a :: splitDash rest := by
  induction a with
  | nil =>
    show splitDash ('-' :: rest) = [] :: splitDash rest
    rw [splitDash, if_pos rfl]
  | cons c cs ih =>
    rw [List.cons_append, splitDash, if_neg (ha c (List.mem_cons_self _ _)),
      ih (fun x hx => ha x (List.mem_cons_of_mem _ hx))]

theorem jsNumber_digits (l : List Char)
    (hne : l ≠ []) (hd : ∀ c ∈ l, 48 ≤ c.toNat ∧ c.toNat ≤ 57) :
    jsNumber l = some ((digitsVal l : Int)) := by
  have hl : trimL l = l :=
    trimL_id l (fun c hc => not_ws_of_digit c (hd c hc).1)
  match l, hne with
  | c :: cs, _ =>
    have hc := hd c (List.mem_cons_self _ _)
    have hdash : ¬ c = '-' := ne_dash_of_digit c hc.1
    have hall : (c :: cs).all Char.isDigit = true := by
      rw [List.all_eq_true]
      intro x hx
      exact isDigit_of_toNat x (hd x hx).1 (hd x hx).2
    simp [jsNumber, hl, hdash, hall]

theorem pad2_mem (n : Nat) (c : Char) (h : c ∈ (pad2 n).data) :
    48 ≤ c.toNat ∧ c.toNat ≤ 57 := by
  rw [pad2] at h
  by_cases hn : n < 10
  · rw [if_pos hn, String.data_append] at h
    rcases List.mem_append.mp h with h | h
    · simp only [show ("0" : String).data = ['0'] from rfl, List.mem_singleton] at h
      subst h
      decide
    · exact natDigits_mem _ _ h
  · rw [if_neg hn] at h
    exact natDigits_mem _ _ h

theorem pad2_digitsVal (n : Nat) : digitsVal (pad2 n).data = n := by
  rw [pad2]
  by_cases hn : n < 10
  · rw [if_pos hn]
    show digitsVal ('0' :: natDigits n) = n
    rw [digitsVal_zero_cons, digitsVal_natDigits]
  · rw [if_neg hn]
    exact digitsVal_natDigits n

theorem pad2_data_ne_nil (n : Nat) : (pad2 n).data ≠ [] := by
  rw [pad2]
  by_cases hn : n < 10
  · rw [if_pos hn]
    simp
  · rw [if_neg hn]
    exact natDigits_ne_nil n

theorem intRender_natCast (y : Nat) : intRender (y : Int) = natRender y := by
  rw [intRender, if_neg (by omega)]
  simp

theorem parseYMD_formatDate (y m d : Nat) :
    parseYMD (formatDate ((y : Int), m, d)) = some ((y : Int), (m : Int), (d : Int)) := by
  have hsplit : splitDash (formatDate ((y : Int), m, d)).data
      = [natDigits y, (pad2 m).data, (pad2 d).data] := by
    show splitDash (intRender (y : Int) ++ ("-") ++ pad2 m ++ ("-") ++ pad2 d).data = _
    rw [intRender_natCast]
    simp only [String.data_append, show ("-" : String).data = ['-'] from rfl,
      List.append_assoc, List.singleton_append, List.cons_append, List.nil_append,
      natRender,
      show ∀ l : List Char, (String.mk l).data = l from fun _ => rfl]
    rw [splitDash_append _ _ (fun c hc => ne_dash_of_digit c (natDigits_mem y c hc).1),
      splitDash_append _ _ (fun c hc => ne_dash_of_digit c (pad2_mem m c hc).1),
      splitDash_no_dash _ (fun c hc => ne_dash_of_digit c (pad2_mem d c hc).1)]
  simp only [parseYMD, hsplit,
    jsNumber_digits _ (natDigits_ne_nil y) (natDigits_mem y),
    jsNumber_digits _ (pad2_data_ne_nil m) (pad2_mem m),
    jsNumber_digits _ (pad2_data_ne_nil d) (pad2_mem d),
    digitsVal_natDigits, pad2_digitsVal]

theorem month_norm (m : Nat) (h1 : 1 ≤ m) (h2 : m ≤ 12) :
    ((m : Int) - 1).fdiv 12 = 0 ∧ (((m : Int) - 1).fmod 12).toNat = m - 1 := by
  interval_cases m <;> exact ⟨by decide, by decide⟩

theorem rollDayFwd_id (fuel : Nat) (y : Int) (m d : Nat)
    (hle : d ≤ daysInMonth y m) (hfuel : 1 ≤ fuel) :
    rollDayFwd fuel y m d = (y, m, d) := by
  match fuel, hfuel with
  | f + 1, _ => rw [rollDayFwd, if_pos hle]

theorem jsDateYMD_id (y m d : Nat) (hy : 100 ≤ y) (hm1 : 1 ≤ m) (hm2 : m ≤ 12)
    (hd1 : 1 ≤ d) (hd2 : d ≤ daysInMonth (y : Int) m) :
    jsDateYMD (y : Int) ((m : Int) - 1) (d : Int) = ((y : Int), m, d) := by
  obtain ⟨hdiv, hmod⟩ := month_norm m hm1 hm2
  rw [jsDateYMD]
  simp only [if_neg (show ¬(0 ≤ (y : Int) ∧ (y : Int) ≤ 99) from by omega),
    hdiv, hmod, add_zero, Nat.sub_add_cancel hm1,
    if_pos (show (1 : Int) ≤ (d : Int) from by omega), Int.toNat_natCast]
  exact rollDayFwd_id d (y : Int) m d hd2 (by omega)

theorem formatDate_ne_empty (y m d : Nat) : formatDate ((y : Int), m, d) ≠ "" := by
  intro h
  have hdata : (formatDate ((y : Int), m, d)).data = [] := by rw [h]
  rw [show (formatDate ((y : Int), m, d)).data
      = (intRender (y : Int)).data ++ ("-" : String).data ++ (pad2 m).data
        ++ ("-" : String).data ++ (pad2 d).data from by
    simp [formatDate, String.data_append]] at hdata
  simp only [List.append_eq_nil] at hdata
  exact pad2_data_ne_nil d hdata.2

theorem customDate_formatDate (y m d : Nat) (hy : 100 ≤ y) (hm1 : 1 ≤ m)
    (hm2 : m ≤ 12) (hd1 : 1 ≤ d) (hd2 : d ≤ daysInMonth (y : Int) m) :
    customDate (formatDate ((y : Int), m, d)) = some ((y : Int), m, d) := by
  simp only [customDate, parseYMD_formatDate,
    jsDateYMD_id y m d hy hm1 hm2 hd1 hd2]

/-- C6 (amended): for every pair of zero-padded `YYYY-MM-DD` strings denoting
**valid** Gregorian calendar dates with four-digit years, the CUSTOM range
returns exactly `{start: s, end: e}` — parsing the integer components as a
local calendar date and reformatting reproduces the input with no timezone
drift; and with either bound absent (or empty) it fails with a message
matching `start_date and end_date required`.  (The validity restriction is
forced by the counterexample: out-of-range components such as `2024-02-30` are
normalized by the `Date` constructor and do not round-trip.) -/
theorem validateDateRangeCustom_spec
    (y1 m1 d1 y2 m2 d2 : Nat)
    (hy1a : 1000 ≤ y1) (hy1b : y1 ≤ 9999)
    (hm1a : 1 ≤ m1) (hm1b : m1 ≤ 12)
    (hd1a : 1 ≤ d1) (hd1b : d1 ≤ daysInMonth (y1 : Int) m1)
    (hy2a : 1000 ≤ y2) (hy2b : y2 ≤ 9999)
    (hm2a : 1 ≤ m2) (hm2b : m2 ≤ 12)
    (hd2a : 1 ≤ d2) (hd2b : d2 ≤ daysInMonth (y2 : Int) m2) :
    (validateDateRangeCustom (some (formatDate ((y1 : Int), m1, d1)))
        (some (formatDate ((y2 : Int), m2, d2)))
      = .ok (formatDate ((y1 : Int), m1, d1), formatDate ((y2 : Int), m2, d2)))
  ∧ (∀ sd ed : Option String, (jsTruthy sd).isNone ∨ (jsTruthy ed).isNone →
      validateDateRangeCustom sd ed = .error customRangeError)
  ∧ hasSub ("start_date and end_date required").data customRangeError.data = true := by
  refine ⟨?_, ?_, by decide⟩
  · rw [validateDateRangeCustom, if_neg]
    · simp only [Option.getD_some]
      rw [customDate_formatDate y1 m1 d1 (by omega) hm1a hm1b hd1a hd1b,
        customDate_formatDate y2 m2 d2 (by omega) hm2a hm2b hd2a hd2b]
      rfl
    · rw [jsTruthy, if_neg (formatDate_ne_empty y1 m1 d1),
        jsTruthy, if_neg (formatDate_ne_empty y2 m2 d2)]
      simp
  · intro sd ed h
    rw [validateDateRangeCustom, if_pos h]

/-- Witness for C6: the spec's own example dates. -/
theorem validateDateRangeCustom_spec_witness :
    validateDateRangeCustom (some (formatDate (((2024 : Nat) : Int), 1, 1)))
        (some (formatDate (((2024 : Nat) : Int), 1, 31)))
      = .ok (formatDate (((2024 : Nat) : Int), 1, 1),
          formatDate (((2024 : Nat) : Int), 1, 31)) :=
  (validateDateRangeCustom_spec 2024 1 1 2024 1 31
    (by decide) (by decide) (by decide) (by decide) (by decide) (by decide)
    (by decide) (by decide) (by decide) (by decide) (by decide) (by decide)).1

/-! ## Row flattening (gaql-query.js, flattenRow) -/

/-- A JSON-like value as returned in a query-result row.  Numbers are modelled
as exact rationals. -/
inductive JVal where
  | jnull
  | jbool (b : Bool)
  | jnum (q : ℚ)
  | jstr (s : String)
  | jarr (elems : List JVal)
  | jobj (fields : List (String × JVal))

/-- ``prefix ? `${prefix}.${key}` : key`` (the source's `newKey`). -/
def joinKey (pre key : String) : String := if pre = "" then key else pre ++ (".") ++ key

/-- `result[key] = v` on an insertion-ordered object: overwrite in place when
the key exists, append otherwise. -/
def insertKV : List (String × JVal) → String → JVal → List (String × JVal)
  | [], k, v => [(k, v)]
  | (k0, v0) :: rest, k, v =>
    if k0 = k then (k0, v) :: rest else (k0, v0) :: insertKV rest k v

/-- `String.prototype.endsWith`. -/
def jsEndsWith (s pat : String) : Bool := pat.data.isSuffixOf s.data

/-- The loop body of `flattenRow(row, prefix)` over the entries of `row`,
accumulating into `acc` (the source's `result` object).  A nested plain object
is flattened recursively into a fresh object and merged via `Object.assign`;
a numeric value whose key ends in `_micros` additionally emits the sibling key
(`newKey.replace('_micros', '')`, i.e. first occurrence removed) holding the
value divided by 1,000,000, before storing the original key unchanged.  The
`Nat` fuel only makes the nested recursion structural; `sizeOf row` is always
enough. -/
def flattenRowGo : Nat → String → List (String × JVal) → List (String × JVal) →
    List (String × JVal)
  | _, _, acc, [] => acc
  | 0, _, acc, _ :: _ => acc
  | fuel + 1, pre, acc, (key, value) :: rest =>
    let newKey := joinKey pre key
    let acc2 :=
      match value with
      | .jnull => insertKV acc newKey .jnull
      | .jobj fields =>
        (flattenRowGo fuel newKey [] fields).foldl (fun a kv => insertKV a kv.1 kv.2) acc
      | .jarr elems => insertKV acc newKey (.jarr elems)
      | .jnum q =>
        if jsEndsWith key ("_micros") then
          insertKV
            (insertKV acc (replaceFirst newKey ("_micros") ("")) (.jnum (q / 1000000)))
            newKey (.jnum q)
        else insertKV acc newKey (.jnum q)
      | .jbool b => insertKV acc newKey (.jbool b)
      | .jstr s => insertKV acc newKey (.jstr s)
    flattenRowGo fuel pre acc2 rest

/-- `flattenRow(row)` with the default empty key prefix.  The explicit `Nat`
fuel is an artifact of the embedding (the source recursion terminates on any
finite JSON row); any fuel at least the number of nodes in `row` yields the
source's result. -/
def flattenRow (fuel : Nat) (row : List (String × JVal)) : List (String × JVal) :=
  flattenRowGo fuel ("") [] row

/-- Key lookup in a flattened row. -/
def lookupKV (l : List (String × JVal)) (k : String) : Option JVal :=
  match l.find? (fun kv => kv.1 == k) with
  | some kv => some kv.2
  | none => none

/-- The spec's round-trip example row. -/
def exampleRow : List (String × JVal) :=
  [(("campaign"), .jobj [(("id"), .jstr ("123"))]),
   (("metrics"), .jobj [(("cost_micros"), .jnum 150000000)])]

def exampleFlat : List (String × JVal) := flattenRow 5 exampleRow

/-- C8: flattening joins nested object fields with `.` into dotted keys
(first conjunct: the recursion step on a nested object merges the child
flattened under the dotted prefix); every key ending in `_micros` with a
numeric value additionally emits a sibling key — the dotted name with
`_micros` removed — holding the value divided by 1,000,000 while the original
micros key keeps its value (second conjunct); and the concrete example
`{campaign:{id:'123'}, metrics:{cost_micros:150000000}}` flattens to
`campaign.id = '123'`, `metrics.cost_micros = 150000000`, `metrics.cost = 150`
(third conjunct). -/
theorem flattenRow_spec :
    (∀ (fuel : Nat) (pre : String) (acc : List (String × JVal)) (key : String)
       (fields rest : List (String × JVal)),
      flattenRowGo (fuel + 1) pre acc ((key, .jobj fields) :: rest)
        = flattenRowGo fuel pre
            ((flattenRowGo fuel (joinKey pre key) [] fields).foldl
              (fun a kv => insertKV a kv.1 kv.2) acc) rest)
  ∧ (∀ (fuel : Nat) (pre : String) (acc : List (String × JVal)) (key : String)
       (q : ℚ) (rest : List (String × JVal)),
      jsEndsWith key ("_micros") = true →
      flattenRowGo (fuel + 1) pre acc ((key, .jnum q) :: rest)
        = flattenRowGo fuel pre
            (insertKV
              (insertKV acc (replaceFirst (joinKey pre key) ("_micros") (""))
                (.jnum (q / 1000000)))
              (joinKey pre key) (.jnum q)) rest)
  ∧ (lookupKV exampleFlat ("campaign.id") = some (.jstr ("123"))
     ∧ lookupKV exampleFlat ("metrics.cost_micros") = some (.jnum 150000000)
     ∧ lookupKV exampleFlat ("metrics.cost") = some (.jnum 150)) := by
  refine ⟨fun fuel pre acc key fields rest => rfl, ?_, rfl, rfl, ?_⟩
  · intro fuel pre acc key q rest h
    simp only [flattenRowGo]
    rw [if_pos h]
  · have h : ((150000000 : ℚ) / 1000000) = 150 := by norm_num
    calc lookupKV exampleFlat ("metrics.cost")
        = some (JVal.jnum ((150000000 : ℚ) / 1000000)) := rfl
      _ = some (JVal.jnum 150) := by rw [h]

/-- Witness for C8: the micros step at the example's own key and value. -/
theorem flattenRow_spec_witness :
    flattenRowGo 1 ("metrics") [] [(("cost_micros"), .jnum 150000000)]
      = flattenRowGo 0 ("metrics")
          (insertKV
            (insertKV []
              (replaceFirst (joinKey ("metrics") ("cost_micros")) ("_micros") (""))
              (.jnum ((150000000 : ℚ) / 1000000)))
            (joinKey ("metrics") ("cost_micros")) (.jnum 150000000)) [] :=
  flattenRow_spec.2.1 0 ("metrics") [] ("cost_micros") 150000000 [] (by decide)

end GoogleAdsMcp
